import Mathlib

/-!
Verification development for the jshop backend (FastAPI + SQLAlchemy).

The relational state and the handlers of `app/main.py` and `app/seed.py`
are shallowly embedded as pure Lean functions over explicit list-backed
tables.  SQL `ORDER BY` is modelled with `List.mergeSort`, `ILIKE
'%pat%'` as a case-insensitive substring test, and a raised
`HTTPException` as an `Except`-style error value returned together with
the unchanged database state (an exception aborts the request before any
commit).  Auto-managed `updated_at` stamps are outside the model;
`created_at` is modelled as an integer timestamp passed in by the
caller.
-/

namespace JShop

/-- Rows of the `categories` table (`app/models.py`, class `Category`). -/
structure Category where
  id : Nat
  code : String
  label : String
  sort_order : Int
deriving DecidableEq, Repr

/-- Rows of the `lots` table (`app/models.py`, class `Lot`).  The
database-managed `updated_at` stamp is not modelled; `created_at` is an
abstract integer timestamp. -/
structure Lot where
  id : Nat
  slug : String
  name : String
  category_id : Nat
  price : Int
  description : String
  specs : List String
  images : List String
  featured : Bool
  sold : Bool
  glitch_background : String
  sort_order : Int
  created_at : Int
deriving DecidableEq, Repr

/-- Rows of the `contact_channels` table (`app/models.py`, class
`ContactChannel`). -/
structure ContactChannel where
  id : Nat
  code : String
  label : String
  hint : String
  url_template : String
  subject_template : String
  body_template : String
  is_external : Bool
  icon_svg : String
  sort_order : Int
deriving DecidableEq, Repr

/-- Rows of the `site_texts` table (`app/models.py`, class `SiteText`). -/
structure SiteText where
  key : String
  value : String
  description : String
deriving DecidableEq, Repr

/-- The relational database state: one list per table, in row-insertion
order. -/
structure DB where
  categories : List Category
  lots : List Lot
  contacts : List ContactChannel
  site_texts : List SiteText
  metrics : List (String × Int)
deriving DecidableEq, Repr

/-- Error taxonomy of the handlers: `HTTPException` with status 404 or
409 (`app/main.py`). -/
inductive ApiError where
  | notFound (detail : String)
  | conflict (detail : String)
deriving DecidableEq, Repr

/-- Substring test on character lists: `isSubstr pat hay` is true iff
`pat` occurs contiguously in `hay`.  Models SQL `LIKE
CONCAT(percent, pat, percent)`. -/
def isSubstr (pat : List Char) : List Char → Bool
  | [] => pat.isEmpty
  | c :: rest => pat.isPrefixOf (c :: rest) || isSubstr pat rest

/-- Lower-cased character list of a string, for the case-insensitive
`ILIKE` comparison. -/
def lowerChars (s : String) : List Char :=
  s.data.map Char.toLower

/-- Case-insensitive containment: `hay ILIKE '%pat%'` of
`app/main.py` (`Lot.name.ilike(search)`). -/
def ilikeContains (hay pat : String) : Bool :=
  isSubstr (lowerChars pat) (lowerChars hay)

/-- Whitespace stripping on character lists: Python `str.strip()` used
in `apply_lot_filters` (`q.strip()`). -/
def stripChars (l : List Char) : List Char :=
  ((l.dropWhile Char.isWhitespace).reverse.dropWhile Char.isWhitespace).reverse

/-- Whitespace stripping on strings (Python `str.strip()`). -/
def strip (s : String) : String :=
  ⟨stripChars s.data⟩

/-- Text-search condition of `apply_lot_filters` (`app/main.py` lines
117-124): skipped when `q` is `None` or the empty string (Python
truthiness of `if q:`), otherwise a case-insensitive substring match of
the stripped query against name or description. -/
def textCond (q : Option String) (r : Lot × Category) : Bool :=
  match q with
  | none => true
  | some s =>
    if s == "" then true
    else ilikeContains r.1.name (strip s) || ilikeContains r.1.description (strip s)

/-- Category condition of `apply_lot_filters` (lines 126-127): skipped
when the code is `None`, empty, or `"all"` (Python truthiness of
`if category and category != "all"`), otherwise an exact match on the
joined category code. -/
def categoryCond (category : Option String) (r : Lot × Category) : Bool :=
  match category with
  | none => true
  | some c => if c == "" || c == "all" then true else r.2.code == c

/-- Availability condition of `apply_lot_filters` (lines 129-130):
restricts to `sold = false` when the flag is set. -/
def availCond (only_available : Bool) (r : Lot × Category) : Bool :=
  !only_available || !r.1.sold

/-- Conjunction of the three filter conditions: `and_(*filters)` in
`apply_lot_filters`. -/
def lotFilterCond (q category : Option String) (only_available : Bool)
    (r : Lot × Category) : Bool :=
  textCond q r && categoryCond category r && availCond only_available r

/-- Embedding of `apply_lot_filters` (`app/main.py` lines 109-135),
acting on the rows of the `Lot`-`Category` inner join. -/
def apply_lot_filters (q category : Option String) (only_available : Bool)
    (rows : List (Lot × Category)) : List (Lot × Category) :=
  rows.filter (lotFilterCond q category only_available)

/-- Lexicographic step for one ascending ORDER BY key: a strictly
smaller key decides, an equal key defers to the comparison `rest` of the
remaining keys. -/
def ascKey {β : Type} [LinearOrder β] (ka kb : β) (rest : Bool) : Bool :=
  decide (ka < kb) || (decide (ka = kb) && rest)

/-- Lexicographic step for one descending ORDER BY key. -/
def descKey {β : Type} [LinearOrder β] (ka kb : β) (rest : Bool) : Bool :=
  decide (kb < ka) || (decide (ka = kb) && rest)

/-- Boolean comparator realising the `ORDER BY` chains of
`apply_lot_sort` (`app/main.py` lines 138-147): each branch is the
lexicographic non-strict order over the listed sort keys.  Booleans are
ordered with `false < true`, so a descending boolean key puts `true`
first, as SQL does. -/
def lotLE (sort : String) (a b : Lot × Category) : Bool :=
  if sort == "price-asc" then
    ascKey a.1.price b.1.price (decide (a.1.name ≤ b.1.name))
  else if sort == "price-desc" then
    descKey a.1.price b.1.price (decide (a.1.name ≤ b.1.name))
  else if sort == "name-asc" then
    decide (a.1.name ≤ b.1.name)
  else if sort == "newest" then
    descKey a.1.created_at b.1.created_at (decide (a.1.name ≤ b.1.name))
  else
    descKey a.1.featured b.1.featured
      (ascKey a.1.price b.1.price (decide (a.1.sort_order ≤ b.1.sort_order)))

/-- Embedding of `apply_lot_sort` (`app/main.py` lines 138-147): the
`ORDER BY` of the selected mode, realised by `mergeSort` with the
comparator `lotLE`. -/
def apply_lot_sort (sort : String) (rows : List (Lot × Category)) : List (Lot × Category) :=
  rows.mergeSort (lotLE sort)

/-- Inner join of the `lots` table with the `categories` table on
`Lot.category_id` (`.join(models.Category)` in `app/main.py`): rows
whose category id does not resolve are dropped. -/
def joinCategory (db : DB) : List (Lot × Category) :=
  db.lots.filterMap fun l =>
    (db.categories.find? fun c => c.id == l.category_id).map fun c => (l, c)

/-- Response schema `LotOut` (`app/schemas.py`). -/
structure LotOut where
  slug : String
  name : String
  category_code : String
  category_label : String
  price : Int
  description : String
  specs : List String
  images : List String
  featured : Bool
  sold : Bool
  glitch_background : String
  sort_order : Int
  created_at : Int
deriving DecidableEq, Repr

/-- Embedding of `lot_to_schema` (`app/main.py` lines 48-67): projects a
lot to its response shape, resolving the category code and label at read
time with empty-string fallbacks.  Python `lot.glitch_background or ""`
is the identity on strings and is transcribed as the field itself. -/
def lot_to_schema (lot : Lot) (category : Option Category) : LotOut :=
  let category_code := match category with | some c => c.code | none => ""
  let category_label := match category with | some c => c.label | none => category_code
  { slug := lot.slug
    name := lot.name
    category_code := category_code
    category_label := category_label
    price := lot.price
    description := lot.description
    specs := lot.specs
    images := lot.images
    featured := lot.featured
    sold := lot.sold
    glitch_background := lot.glitch_background
    sort_order := lot.sort_order
    created_at := lot.created_at }

/-- Embedding of `normalize_page` (`app/main.py` lines 42-45):
`page = max(page, 1)` and `page_size = max(1, min(page_size, 100))`. -/
def normalize_page (page page_size : Int) : Int × Int :=
  (max page 1, max 1 (min page_size 100))

/-- Response schema `LotsPage` (`app/schemas.py`). -/
structure LotsPage where
  items : List LotOut
  total : Nat
  page : Int
  page_size : Int
  pages : Nat
deriving DecidableEq, Repr

/-- Embedding of the `get_lots` handler (`app/main.py` lines 185-215):
normalizes the page parameters, counts the filtered join, sorts, slices
with `offset`/`limit`, and computes `pages = max(1, ceil(total /
page_size))` (the `math.ceil` of the real quotient, written here with
the equivalent integer formula). -/
def get_lots (db : DB) (q category : Option String) (sort : String)
    (only_available : Bool) (page page_size : Int) : LotsPage :=
  let p := normalize_page page page_size
  let filtered := apply_lot_filters q category only_available (joinCategory db)
  let total := filtered.length
  let sorted := apply_lot_sort sort filtered
  let items := (sorted.drop ((p.1 - 1) * p.2).toNat).take p.2.toNat
  let pages := max 1 ((total + p.2.toNat - 1) / p.2.toNat)
  { items := items.map fun r => lot_to_schema r.1 (some r.2)
    total := total
    page := p.1
    page_size := p.2
    pages := pages }

/-- Documented ordering for mode `price-asc` (spec sorting table): price
ascending with name-ascending tie-break. -/
def specOrderPriceAsc (a b : Lot × Category) : Prop :=
  a.1.price < b.1.price ∨ (a.1.price = b.1.price ∧ a.1.name ≤ b.1.name)

/-- Documented ordering for mode `price-desc` (spec sorting table):
price descending with name-ascending tie-break. -/
def specOrderPriceDesc (a b : Lot × Category) : Prop :=
  b.1.price < a.1.price ∨ (a.1.price = b.1.price ∧ a.1.name ≤ b.1.name)

/-- Documented ordering for mode `name-asc` (spec sorting table): name
ascending. -/
def specOrderNameAsc (a b : Lot × Category) : Prop :=
  a.1.name ≤ b.1.name

/-- Documented ordering for mode `newest` (spec sorting table):
created_at descending with name-ascending tie-break. -/
def specOrderNewest (a b : Lot × Category) : Prop :=
  b.1.created_at < a.1.created_at ∨
    (a.1.created_at = b.1.created_at ∧ a.1.name ≤ b.1.name)

/-- Documented ordering for the default mode (`featured` or any
unrecognized string; spec sorting table): featured descending, then
price ascending, then sort_order ascending.  Booleans are ordered
`false < true`, so `b.featured < a.featured` says `a` is featured and
`b` is not. -/
def specOrderDefault (a b : Lot × Category) : Prop :=
  b.1.featured < a.1.featured ∨
    (a.1.featured = b.1.featured ∧
      (a.1.price < b.1.price ∨
        (a.1.price = b.1.price ∧ a.1.sort_order ≤ b.1.sort_order)))

/-- Fresh primary key for an autoincrement insert: one past the largest
id in use. -/
def freshId (ids : List Nat) : Nat :=
  ids.foldr max 0 + 1

/-- Request schema `LotUpdate` (`app/schemas.py`): every field optional;
`none` models a field absent from the PATCH payload
(`payload.dict(exclude_unset=True)`). -/
structure LotUpdate where
  slug : Option String := none
  name : Option String := none
  category_code : Option String := none
  price : Option Int := none
  description : Option String := none
  specs : Option (List String) := none
  images : Option (List String) := none
  featured : Option Bool := none
  sold : Option Bool := none
  glitch_background : Option String := none
  sort_order : Option Int := none
deriving DecidableEq, Repr

/-- Embedding of the `admin_update_lot` handler (`app/main.py` lines
353-374).  An error value is returned together with the unchanged
database (an HTTPException aborts before commit).  Exact quoted error
strings are abbreviated. -/
def admin_update_lot (db : DB) (slug : String) (payload : LotUpdate) :
    DB × Except ApiError Lot :=
  match db.lots.find? (fun l => l.slug == slug) with
  | none => (db, .error (.notFound ("Lot " ++ slug ++ " not found")))
  | some lot =>
    let slugConflict :=
      match payload.slug with
      | some s => s != slug && db.lots.any (fun l => l.slug == s)
      | none => false
    if slugConflict then
      (db, .error (.conflict "Lot slug already exists"))
    else
      match (match payload.category_code with
             | none => some lot.category_id
             | some c => (db.categories.find? (fun k => k.code == c)).map
                 (fun k => k.id) : Option Nat) with
      | none => (db, .error (.notFound "Category not found"))
      | some cid =>
        let lot2 : Lot :=
          { lot with
            slug := payload.slug.getD lot.slug
            name := payload.name.getD lot.name
            category_id := cid
            price := payload.price.getD lot.price
            description := payload.description.getD lot.description
            specs := payload.specs.getD lot.specs
            images := payload.images.getD lot.images
            featured := payload.featured.getD lot.featured
            sold := payload.sold.getD lot.sold
            glitch_background := payload.glitch_background.getD lot.glitch_background
            sort_order := payload.sort_order.getD lot.sort_order }
        ({ db with lots := db.lots.map (fun l => if l.id == lot.id then lot2 else l) },
          .ok lot2)

/-- Modelled from the spec: the request schema `LotDuplicateCreate` is
referenced by `admin_duplicate_lot` but missing from the provided
`app/schemas.py`.  Per the spec the duplicate operation takes a required
new slug and optional overrides for name, featured, sold and sort_order
(other pydantic string fields of this codebase carry `min_length=1`, so
a supplied name is non-empty). -/
structure LotDuplicateCreate where
  new_slug : String
  new_name : Option String := none
  featured : Option Bool := none
  sold : Option Bool := none
  sort_order : Option Int := none
deriving DecidableEq, Repr

/-- Embedding of the `admin_duplicate_lot` handler (`app/main.py` lines
318-350).  Python `payload.new_name or source.name` also falls back on
an empty-string override, transcribed by the inner `== ""` test;
`sold = False if payload.sold is None else payload.sold` defaults to
`false`, not to the source state. -/
def admin_duplicate_lot (db : DB) (slug : String) (payload : LotDuplicateCreate)
    (now : Int) : DB × Except ApiError Lot :=
  match db.lots.find? (fun l => l.slug == slug) with
  | none => (db, .error (.notFound ("Lot " ++ slug ++ " not found")))
  | some source =>
    if db.lots.any (fun l => l.slug == payload.new_slug) then
      (db, .error (.conflict "Lot slug already exists"))
    else
      let duplicate : Lot :=
        { id := freshId (db.lots.map (fun l => l.id))
          slug := payload.new_slug
          name := match payload.new_name with
                  | some n => if n == "" then source.name else n
                  | none => source.name
          category_id := source.category_id
          price := source.price
          description := source.description
          specs := source.specs
          images := source.images
          featured := payload.featured.getD source.featured
          sold := payload.sold.getD false
          glitch_background := source.glitch_background
          sort_order := payload.sort_order.getD source.sort_order
          created_at := now }
      ({ db with lots := db.lots ++ [duplicate] }, .ok duplicate)

/-- Request schema `LotCreate` (`app/schemas.py`, via `LotBase`). -/
structure LotCreate where
  slug : String
  name : String
  category_code : String
  price : Int
  description : String := ""
  specs : List String := []
  images : List String := []
  featured : Bool := false
  sold : Bool := false
  glitch_background : String := ""
  sort_order : Int := 0
deriving DecidableEq, Repr

/-- Embedding of `create_lot_model` (`app/main.py` lines 70-83), with
the autoincrement id and the `created_at` server stamp made explicit. -/
def create_lot_model (payload : LotCreate) (category_id : Nat) (id : Nat)
    (now : Int) : Lot :=
  { id := id
    slug := payload.slug
    name := payload.name
    category_id := category_id
    price := payload.price
    description := payload.description
    specs := payload.specs
    images := payload.images
    featured := payload.featured
    sold := payload.sold
    glitch_background := payload.glitch_background
    sort_order := payload.sort_order
    created_at := now }

/-- Response schema `LotBulkCreateError` (`app/schemas.py`). -/
structure LotBulkCreateError where
  slug : String
  reason : String
deriving DecidableEq, Repr

/-- Response schema `LotBulkCreateResult` (`app/schemas.py`). -/
structure LotBulkCreateResult where
  created : List LotOut
  errors : List LotBulkCreateError
  total : Nat
deriving DecidableEq, Repr

/-- Last-match lookup mirroring the dict comprehension
`category_map = (insert one entry per category row)` of
`admin_bulk_create_lots`: a later row with the same code overrides an
earlier one. -/
def categoryMapGet (cats : List Category) (code : String) : Option Category :=
  (cats.filter (fun c => c.code == code)).getLast?

/-- Per-item loop of `admin_bulk_create_lots` (`app/main.py` lines
292-310): each item is checked against persisted slugs, then against
slugs accepted earlier in the batch, then for category resolvability;
rejected items append a slug/reason error, accepted items append a new
row, and processing always continues with the remaining items.  (The
source pre-restricts the persisted-slug query to the requested slugs,
which has the same membership semantics as checking all persisted
slugs.)  Exact quoted error strings are abbreviated. -/
def bulkGo (cats : List Category) (existing : List String) (now : Int) :
    List LotCreate → List String → Nat → List Lot × List LotBulkCreateError
  | [], _, _ => ([], [])
  | item :: rest, planned, nextId =>
    if existing.contains item.slug then
      let r := bulkGo cats existing now rest planned nextId
      (r.1, ⟨item.slug, "Slug already exists"⟩ :: r.2)
    else if planned.contains item.slug then
      let r := bulkGo cats existing now rest planned nextId
      (r.1, ⟨item.slug, "Duplicate slug in payload"⟩ :: r.2)
    else
      match categoryMapGet cats item.category_code with
      | none =>
        let r := bulkGo cats existing now rest planned nextId
        (r.1, ⟨item.slug, "Category " ++ item.category_code ++ " not found"⟩ :: r.2)
      | some category =>
        let r := bulkGo cats existing now rest (item.slug :: planned) (nextId + 1)
        (create_lot_model item category.id nextId now :: r.1, r.2)

/-- Embedding of the `admin_bulk_create_lots` handler (`app/main.py`
lines 274-315): empty payloads return an empty result; otherwise the
batch loop runs, the accepted rows are inserted in one commit, and the
response reports the created rows, the per-item errors and the total
number of attempted items. -/
def admin_bulk_create_lots (db : DB) (items : List LotCreate) (now : Int) :
    DB × LotBulkCreateResult :=
  match items with
  | [] => (db, { created := [], errors := [], total := 0 })
  | _ :: _ =>
    let existing := db.lots.map (fun l => l.slug)
    let r := bulkGo db.categories existing now items []
      (freshId (db.lots.map (fun l => l.id)))
    let db2 := { db with lots := db.lots ++ r.1 }
    (db2,
      { created := r.1.map (fun l =>
          lot_to_schema l (db2.categories.find? (fun c => c.id == l.category_id)))
        errors := r.2
        total := items.length })

/-- Embedding of the `admin_delete_category` handler (`app/main.py`
lines 428-439): a category still referenced by a lot yields a conflict
with the state untouched; otherwise the category row is removed. -/
def admin_delete_category (db : DB) (code : String) : DB × Except ApiError Unit :=
  match db.categories.find? (fun c => c.code == code) with
  | none => (db, .error (.notFound ("Category " ++ code ++ " not found")))
  | some category =>
    let in_use := (db.lots.filter (fun l => l.category_id == category.id)).length
    if in_use ≠ 0 then
      (db, .error (.conflict "Category is used by lots. Reassign or delete lots first."))
    else
      ({ db with categories := db.categories.filter (fun c => !(c.id == category.id)) },
        .ok ())

/-- Seed-file entry for one contact channel, with the `.get(...)`
defaults used by `seed_if_empty` (`app/seed.py` lines 143-156). -/
structure ContactSeed where
  code : String := ""
  label : String := ""
  hint : String := ""
  url_template : String := ""
  subject_template : String := ""
  body_template : String := ""
  is_external : Bool := true
  icon_svg : String := ""
  sort_order : Int := 0
deriving DecidableEq, Repr

/-- Seed-file entry for one lot, with the `.get(...)` defaults used by
`seed_if_empty` (`app/seed.py` lines 160-180). -/
structure LotSeed where
  slug : String := ""
  name : String := ""
  category_code : String := ""
  price : Int := 0
  description : String := ""
  specs : List String := []
  images : List String := []
  featured : Bool := false
  sold : Bool := false
  glitch_background : String := ""
  sort_order : Int := 0
deriving DecidableEq, Repr

/-- Modelled from the spec: the bundled seed document
`app/data/seed_data.json` read by `load_seed_data` is not among the
provided sources.  Per the spec it holds category labels, a contact
list, a lot list and decorative background asset names; it is modelled
as an explicit parameter with those four components. -/
structure SeedData where
  category_labels : List (String × String) := []
  contacts : List ContactSeed := []
  lots : List LotSeed := []
  glitch_backgrounds : List String := []
deriving DecidableEq, Repr

/-- Transcription of the hardcoded `DEFAULT_SITE_TEXTS` catalog
(`app/seed.py` lines 15-92). -/
def DEFAULT_SITE_TEXTS : List SiteText := [
  ⟨"site.window_title", "AeroGem Atelier", "Название витрины в шапке окна"⟩,
  ⟨"hero.kicker", "Новая коллекция 2026", "Кикер в шапке"⟩,
  ⟨"hero.title", "Ювелирная витрина с эффектом живого стекла", "Заголовок шапки"⟩,
  ⟨"hero.description", "Воздушный Windows Aero стиль, хрустальные блики и мягкий объем. Нажимайте на лоты ниже: откроется полноценная карточка с описанием, листанием фото и детальными характеристиками.", "Описание в шапке"⟩,
  ⟨"hero.action.catalog", "Смотреть лоты", "Кнопка скролла к каталогу"⟩,
  ⟨"hero.action.featured", "Открыть витринный лот", "Кнопка открытия витринного лота"⟩,
  ⟨"hero.action.layout_mobile", "Мобильная верстка", "Текст кнопки переключения на мобильную верстку"⟩,
  ⟨"hero.action.layout_desktop", "ПК верстка", "Текст кнопки переключения на ПК верстку"⟩,
  ⟨"layout.phone_default_mode", "desktop", "Стартовый режим на телефоне: desktop или mobile"⟩,
  ⟨"widget.catalog_count", "Лотов в каталоге", "Подпись счетчика всех лотов"⟩,
  ⟨"widget.sold_count", "Проданных лотов", "Подпись счетчика проданных лотов"⟩,
  ⟨"widget.visits_count", "Количество визитов", "Подпись счетчика визитов"⟩,
  ⟨"toolbar.title", "Панель подбора", "Заголовок панели фильтров"⟩,
  ⟨"toolbar.search.label", "Поиск по названию", "Подпись поля поиска"⟩,
  ⟨"toolbar.search.placeholder", "Например: сапфир или кольцо", "Плейсхолдер поля поиска"⟩,
  ⟨"toolbar.sort.label", "Сортировка", "Подпись сортировки"⟩,
  ⟨"toolbar.sort.featured", "Сначала рекомендуемые", "Опция сортировки featured"⟩,
  ⟨"toolbar.sort.price_asc", "Цена: по возрастанию", "Опция сортировки по цене вверх"⟩,
  ⟨"toolbar.sort.price_desc", "Цена: по убыванию", "Опция сортировки по цене вниз"⟩,
  ⟨"toolbar.sort.name_asc", "Название: А-Я", "Опция сортировки по названию"⟩,
  ⟨"toolbar.available", "В наличии", "Лейбл фильтра наличия"⟩,
  ⟨"toolbar.categories", "Категории", "Лейбл блока категорий"⟩,
  ⟨"catalog.title", "Лоты", "Заголовок каталога"⟩,
  ⟨"catalog.note", "Карточки интерактивные: нажмите на любой лот для детального просмотра.", "Подзаголовок каталога"⟩,
  ⟨"catalog.empty", "Ничего не найдено. Попробуйте изменить фильтр или поиск.", "Сообщение пустого результата"⟩,
  ⟨"tray.title", "Трей лотов", "Заголовок трея"⟩,
  ⟨"tray.empty", "Свернутые окна появятся здесь.", "Пустой трей"⟩,
  ⟨"pagination.prev", "Назад", "Кнопка предыдущей страницы"⟩,
  ⟨"pagination.next", "Вперед", "Кнопка следующей страницы"⟩,
  ⟨"pagination.page_aria", "Страница {page}", "ARIA для кнопки страницы"⟩,
  ⟨"pagination.max_desktop", "16", "Макс. лотов на странице в ПК-режиме (автоподстройка ±4)"⟩,
  ⟨"pagination.max_mobile", "8", "Макс. лотов на странице в мобильном режиме (автоподстройка ±4)"⟩,
  ⟨"lot.window.title_prefix", "Лот: {name}", "Заголовок окна лота"⟩,
  ⟨"lot.order.contacts", "Контакты для заказа", "Кнопка раскрытия контактов"⟩,
  ⟨"lot.order.sold", "Лот продан", "Текст кнопки контактов для проданного лота"⟩,
  ⟨"lot.card.open", "Открыть", "Кнопка открытия карточки"⟩,
  ⟨"lot.placeholder.title", "Скоро в каталоге", "Заголовок плейсхолдера карточки"⟩,
  ⟨"lot.placeholder.text", "Новая ювелирная позиция\nпоявится здесь", "Текст плейсхолдера карточки"⟩,
  ⟨"lot.status.sold", "Продано", "Бейдж проданного лота"⟩,
  ⟨"lot.status.sold_aria", "Лот продан", "ARIA для бейджа проданного лота"⟩,
  ⟨"minimize.limit_hint", "Лимит свернутых окон: {limit}", "Подсказка лимита свернутых окон"⟩,
  ⟨"lot.thumbnail.aria", "Открыть фото {index}", "ARIA миниатюры фото"⟩,
  ⟨"lot.thumbnail.alt", "{lot_name} миниатюра {index}", "ALT миниатюры"⟩,
  ⟨"lot.image.alt", "{lot_name} - фото {index}", "ALT основного фото"⟩]

/-- Embedding of `ensure_site_metrics` (`app/seed.py` lines 100-103):
adds the visits counter with value 0 when no row with key `visits`
exists. -/
def ensure_site_metrics (db : DB) : DB :=
  if db.metrics.any (fun m => m.1 == "visits") then db
  else { db with metrics := db.metrics ++ [("visits", 0)] }

/-- Embedding of `ensure_site_texts` (`app/seed.py` lines 106-118): the
existing keys are collected once, then every default entry whose key is
not among them is appended; existing rows are never modified. -/
def ensure_site_texts (db : DB) : DB :=
  let existing_keys := db.site_texts.map (fun t => t.key)
  { db with site_texts :=
      db.site_texts ++ DEFAULT_SITE_TEXTS.filter (fun t => !existing_keys.contains t.key) }

/-- Embedding of `seed_if_empty` (`app/seed.py` lines 121-182): always
ensures metrics and site texts; if and only if the lot table is empty it
then bulk-loads categories (skipping the pseudo-code `all`, with
sequential sort order), contacts, and lots (each resolved against the
categories created in this run by code, silently skipping unresolvable
ones).  Autoincrement ids and the `created_at` stamp are explicit. -/
def seed_if_empty (sd : SeedData) (now : Int) (db0 : DB) : DB :=
  let db := ensure_site_texts (ensure_site_metrics db0)
  match db.lots with
  | _ :: _ => db
  | [] =>
    let kept := sd.category_labels.filter (fun kv => !(kv.1 == "all"))
    let catBase := freshId (db.categories.map (fun c => c.id))
    let newCats : List Category := kept.enum.map (fun p =>
      { id := catBase + p.1, code := p.2.1, label := p.2.2, sort_order := (p.1 : Int) })
    let conBase := freshId (db.contacts.map (fun c => c.id))
    let newContacts : List ContactChannel := sd.contacts.enum.map (fun p =>
      { id := conBase + p.1, code := p.2.code, label := p.2.label, hint := p.2.hint,
        url_template := p.2.url_template, subject_template := p.2.subject_template,
        body_template := p.2.body_template, is_external := p.2.is_external,
        icon_svg := p.2.icon_svg, sort_order := p.2.sort_order })
    let lotBase := freshId (db.lots.map (fun l => l.id))
    let newLots := (sd.lots.foldl (fun (acc : List Lot × Nat) ld =>
      match (newCats.filter (fun c => c.code == ld.category_code)).getLast? with
      | none => acc
      | some category =>
        (acc.1 ++ [{ id := acc.2, slug := ld.slug, name := ld.name,
                     category_id := category.id, price := ld.price,
                     description := ld.description, specs := ld.specs,
                     images := ld.images, featured := ld.featured, sold := ld.sold,
                     glitch_background := ld.glitch_background,
                     sort_order := ld.sort_order, created_at := now }],
         acc.2 + 1)) ([], lotBase)).1
    { db with categories := db.categories ++ newCats,
              contacts := db.contacts ++ newContacts,
              lots := newLots }

/-- Response schema `BootstrapResponse` (`app/schemas.py`); contacts are
kept as table rows (the `ContactOut` projection drops only the id). -/
structure BootstrapResponse where
  lots : List LotOut
  category_labels : List (String × String)
  glitch_backgrounds : List String
  contacts : List ContactChannel
deriving DecidableEq, Repr

/-- Ordered-dictionary insertion: Python dict assignment keeps the
original position of an existing key and appends a new key at the
end. -/
def dictInsert (m : List (String × String)) (k v : String) : List (String × String) :=
  if m.any (fun p => p.1 == k) then
    m.map (fun p => if p.1 == k then (k, v) else p)
  else m ++ [(k, v)]

/-- First-match lookup in the ordered dictionary. -/
def dictGet (m : List (String × String)) (k : String) : Option String :=
  (m.find? (fun p => p.1 == k)).map (fun p => p.2)

/-- Embedding of the `get_bootstrap` handler (`app/main.py` lines
155-182): the joined lot list ordered by sort_order then name, the
category label dictionary seeded with the synthetic pair
`("all", "Все")` and then one assignment per category row in sort
order, the decorative backgrounds from the seed document, and the
contacts ordered by sort_order then code. -/
def get_bootstrap (sd : SeedData) (db : DB) : BootstrapResponse :=
  let lots := (joinCategory db).mergeSort
    (fun a b => ascKey a.1.sort_order b.1.sort_order (decide (a.1.name ≤ b.1.name)))
  let categories := db.categories.mergeSort
    (fun a b => decide (a.sort_order ≤ b.sort_order))
  let contacts := db.contacts.mergeSort
    (fun a b => ascKey a.sort_order b.sort_order (decide (a.code ≤ b.code)))
  let category_labels :=
    categories.foldl (fun m c => dictInsert m c.code c.label) [("all", "Все")]
  { lots := lots.map (fun r => lot_to_schema r.1 (some r.2))
    category_labels := category_labels
    glitch_backgrounds := sd.glitch_backgrounds
    contacts := contacts }

/-- Concrete category fixture for witnesses and counterexamples. -/
def demoCategory : Category :=
  { id := 1, code := "rings", label := "Кольца", sort_order := 0 }

/-- Concrete lot fixture: featured, sold, priced 100. -/
def demoLot : Lot :=
  { id := 1, slug := "ring-1", name := "Ring one", category_id := 1, price := 100,
    description := "gold ring", specs := ["18k"], images := ["a.jpg"],
    featured := true, sold := true, glitch_background := "bg1", sort_order := 3,
    created_at := 10 }

/-- Concrete lot fixture: not featured, available, priced 300. -/
def demoLot2 : Lot :=
  { id := 2, slug := "ring-2", name := "Ring two", category_id := 1, price := 300,
    description := "silver ring", specs := [], images := [], featured := false,
    sold := false, glitch_background := "", sort_order := 1, created_at := 20 }

/-- Concrete database fixture with one category and two lots. -/
def demoDB : DB :=
  { categories := [demoCategory], lots := [demoLot, demoLot2], contacts := [],
    site_texts := [], metrics := [] }

/-- Concrete seed bundle: one category label and one lot resolving to
it. -/
def demoSeed : SeedData :=
  { category_labels := [("rings", "Кольца")], contacts := [],
    lots := [{ slug := "ring-1", name := "Ring", category_code := "rings", price := 100 }],
    glitch_backgrounds := [] }

/-- Concrete database in which the lot table is empty but the seed
bundle's category code is already present (reachable by seeding a fresh
database and then deleting every lot through the admin API). -/
def demoSeedDB : DB :=
  { categories := [demoCategory], lots := [], contacts := [], site_texts := [],
    metrics := [] }

/-- Concrete bulk-create item targeting an unused slug and the demo
category. -/
def demoBulkItem : LotCreate :=
  { slug := "new-ring", name := "New ring", category_code := "rings", price := 5 }

theorem textCond_none (r : Lot × Category) : textCond none r = true := rfl

theorem categoryCond_none (r : Lot × Category) : categoryCond none r = true := rfl

theorem availCond_false (r : Lot × Category) : availCond false r = true := rfl

theorem isSubstr_nil (hay : List Char) : isSubstr [] hay = true := by
  cases hay <;> simp [isSubstr]

theorem ilikeContains_empty (hay : String) : ilikeContains hay "" = true := by
  have h : lowerChars "" = [] := rfl
  simp [ilikeContains, h, isSubstr_nil]

theorem stripChars_pad (l : List Char) :
    stripChars (' ' :: (l ++ [' '])) = stripChars l := by
  have hws : Char.isWhitespace ' ' = true := rfl
  unfold stripChars
  rw [List.dropWhile_cons_of_pos hws, List.dropWhile_append]
  by_cases h : (l.dropWhile Char.isWhitespace).isEmpty
  · have h0 : l.dropWhile Char.isWhitespace = [] := by
      simpa [List.isEmpty_iff] using h
    simp [h, h0, hws]
  · simp only [h, if_neg, Bool.false_eq_true, not_false_iff, ite_false]
    rw [List.reverse_append]
    simp [hws]

theorem strip_pad (s : String) : strip (" " ++ s ++ " ") = strip s := by
  have h : (" " ++ s ++ " ").data = ' ' :: (s.data ++ [' ']) := by
    simp [String.data_append]
  simp [strip, h, stripChars_pad]

theorem pad_ne_empty (s : String) : (" " ++ s ++ " ") ≠ "" := by
  intro h
  have h2 := congrArg String.data h
  simp [String.data_append] at h2

theorem textCond_pad (s : String) (r : Lot × Category) :
    textCond (some (" " ++ s ++ " ")) r = textCond (some s) r := by
  by_cases hs : s = ""
  · subst hs
    have h0 : strip "  " = "" := rfl
    simp [textCond, h0, ilikeContains_empty]
  · simp [textCond, pad_ne_empty s, hs, strip_pad]

/-- C8: for every data state and every combination of search text,
category code and availability flag, the trio of filters applied
together by `apply_lot_filters` selects exactly the intersection of the
sets selected by each filter applied alone. -/
theorem C8_filters_intersect (db : DB) (q category : Option String)
    (only_available : Bool) (r : Lot × Category) :
    r ∈ apply_lot_filters q category only_available (joinCategory db) ↔
      (r ∈ apply_lot_filters q none false (joinCategory db) ∧
        r ∈ apply_lot_filters none category false (joinCategory db) ∧
        r ∈ apply_lot_filters none none only_available (joinCategory db)) := by
  simp only [apply_lot_filters, List.mem_filter, lotFilterCond, textCond_none,
    categoryCond_none, availCond_false, Bool.and_true, Bool.true_and,
    Bool.and_eq_true]
  tauto

/-- C10: an absent or empty search parameter skips the text filter, an
absent, empty or `all` category parameter skips the category filter, and
the search text is stripped of surrounding whitespace before matching
(so a padded query filters exactly like its unpadded form, and a
whitespace-only query degenerates to the empty pattern, which matches
every row). -/
theorem C10_filter_skip_rules (db : DB) (q category : Option String)
    (only_available : Bool) (s : String) :
    apply_lot_filters (some "") category only_available (joinCategory db) =
      apply_lot_filters none category only_available (joinCategory db) ∧
    apply_lot_filters q (some "") only_available (joinCategory db) =
      apply_lot_filters q none only_available (joinCategory db) ∧
    apply_lot_filters q (some "all") only_available (joinCategory db) =
      apply_lot_filters q none only_available (joinCategory db) ∧
    apply_lot_filters (some (" " ++ s ++ " ")) category only_available (joinCategory db) =
      apply_lot_filters (some s) category only_available (joinCategory db) := by
  refine ⟨?_, ?_, ?_, ?_⟩
  · exact List.filter_congr fun x _ => by simp [lotFilterCond, textCond]
  · exact List.filter_congr fun x _ => by simp [lotFilterCond, categoryCond]
  · exact List.filter_congr fun x _ => by simp [lotFilterCond, categoryCond]
  · exact List.filter_congr fun x _ => by simp [lotFilterCond, textCond_pad]

theorem ceil_div_formula (a b : Nat) (hb : 0 < b) :
    (a + b - 1) / b = ⌈(a : ℚ) / (b : ℚ)⌉₊ := by
  rcases Nat.eq_zero_or_pos a with ha | ha
  · subst ha
    have hlt : b - 1 < b := by omega
    simp [Nat.div_eq_of_lt hlt]
  · have hb' : (0 : ℚ) < (b : ℚ) := by exact_mod_cast hb
    have hmod := Nat.div_add_mod (a + b - 1) b
    have hmlt : (a + b - 1) % b < b := Nat.mod_lt _ hb
    obtain ⟨n, hq⟩ : ∃ n, (a + b - 1) / b = n := ⟨_, rfl⟩
    obtain ⟨r, hr⟩ : ∃ r, (a + b - 1) % b = r := ⟨_, rfl⟩
    rw [hq, hr] at hmod
    rw [hr] at hmlt
    rw [hq]
    have hn1 : 1 ≤ n := by
      by_contra hcon
      have hz : n = 0 := by omega
      rw [hz, Nat.mul_zero] at hmod
      omega
    symm
    rw [Nat.ceil_eq_iff (by omega : n ≠ 0)]
    constructor
    · rw [lt_div_iff₀ hb']
      have h2 : (n - 1) * b < a := by
        have h3 : (n - 1) * b = n * b - b := by rw [Nat.sub_mul, one_mul]
        have h4 : n * b = b * n := Nat.mul_comm _ _
        omega
      exact_mod_cast h2
    · rw [div_le_iff₀ hb']
      have h4 : a ≤ n * b := by
        have h5 : n * b = b * n := Nat.mul_comm _ _
        omega
      exact_mod_cast h4

/-- C1: for any integer page and page_size, the lot listing clamps the
page to at least 1 and the page size into [1,100], reports the size of
the filtered (not paginated) set as total, returns the filtered and
sorted rows sliced at [(page-1)·page_size, page·page_size), and reports
max(1, ceil(total / page_size)) pages. -/
theorem C1_get_lots_pagination (db : DB) (q category : Option String)
    (sort : String) (only_available : Bool) (page page_size : Int) :
    get_lots db q category sort only_available page page_size =
      { items :=
          (((apply_lot_sort sort
                (apply_lot_filters q category only_available (joinCategory db))).drop
              ((max page 1 - 1) * max 1 (min page_size 100)).toNat).take
            (max 1 (min page_size 100)).toNat).map
            (fun r => lot_to_schema r.1 (some r.2))
        total := (apply_lot_filters q category only_available (joinCategory db)).length
        page := max page 1
        page_size := max 1 (min page_size 100)
        pages :=
          max 1
            ⌈((apply_lot_filters q category only_available (joinCategory db)).length : ℚ) /
              ((max 1 (min page_size 100) : Int) : ℚ)⌉₊ } := by
  simp only [get_lots, normalize_page]
  congr 1
  have h1 : (1 : Int) ≤ max 1 (min page_size 100) := le_max_left _ _
  have h0 : (0 : Int) ≤ max 1 (min page_size 100) := le_trans zero_le_one h1
  have hpos : 0 < (max 1 (min page_size 100)).toNat := by
    have h2 := Int.toNat_le_toNat h1
    simp at h2
    omega
  have hcast : ((max 1 (min page_size 100) : Int) : ℚ) =
      (((max 1 (min page_size 100) : Int).toNat : Nat) : ℚ) := by
    have h3 : (((max 1 (min page_size 100) : Int).toNat : Int)) =
        max 1 (min page_size 100) := Int.toNat_of_nonneg h0
    exact_mod_cast congrArg (fun z : Int => (z : ℚ)) h3.symm
  rw [hcast, ← ceil_div_formula _ _ hpos]

theorem ascKey_trans {β : Type} [LinearOrder β] {ka kb kc : β} {r1 r2 r3 : Bool}
    (h : r1 = true → r2 = true → r3 = true) :
    ascKey ka kb r1 = true → ascKey kb kc r2 = true → ascKey ka kc r3 = true := by
  simp only [ascKey, Bool.or_eq_true, Bool.and_eq_true, decide_eq_true_eq]
  rintro (hab | ⟨hab, h1⟩) (hbc | ⟨hbc, h2⟩)
  · exact Or.inl (lt_trans hab hbc)
  · exact Or.inl (hbc ▸ hab)
  · exact Or.inl (hab ▸ hbc)
  · exact Or.inr ⟨hab.trans hbc, h h1 h2⟩

theorem ascKey_total {β : Type} [LinearOrder β] {ka kb : β} {r1 r2 : Bool}
    (h : (r1 || r2) = true) :
    (ascKey ka kb r1 || ascKey kb ka r2) = true := by
  simp only [ascKey, Bool.or_eq_true, Bool.and_eq_true, decide_eq_true_eq] at h ⊢
  rcases lt_trichotomy ka kb with hlt | heq | hgt
  · exact Or.inl (Or.inl hlt)
  · rcases h with h1 | h2
    · exact Or.inl (Or.inr ⟨heq, h1⟩)
    · exact Or.inr (Or.inr ⟨heq.symm, h2⟩)
  · exact Or.inr (Or.inl hgt)

theorem descKey_trans {β : Type} [LinearOrder β] {ka kb kc : β} {r1 r2 r3 : Bool}
    (h : r1 = true → r2 = true → r3 = true) :
    descKey ka kb r1 = true → descKey kb kc r2 = true → descKey ka kc r3 = true := by
  simp only [descKey, Bool.or_eq_true, Bool.and_eq_true, decide_eq_true_eq]
  rintro (hab | ⟨hab, h1⟩) (hbc | ⟨hbc, h2⟩)
  · exact Or.inl (lt_trans hbc hab)
  · exact Or.inl (hbc ▸ hab)
  · exact Or.inl (by rw [hab]; exact hbc)
  · exact Or.inr ⟨hab.trans hbc, h h1 h2⟩

theorem descKey_total {β : Type} [LinearOrder β] {ka kb : β} {r1 r2 : Bool}
    (h : (r1 || r2) = true) :
    (descKey ka kb r1 || descKey kb ka r2) = true := by
  simp only [descKey, Bool.or_eq_true, Bool.and_eq_true, decide_eq_true_eq] at h ⊢
  rcases lt_trichotomy ka kb with hlt | heq | hgt
  · exact Or.inr (Or.inl hlt)
  · rcases h with h1 | h2
    · exact Or.inl (Or.inr ⟨heq, h1⟩)
    · exact Or.inr (Or.inr ⟨heq.symm, h2⟩)
  · exact Or.inl (Or.inl hgt)

theorem lotLE_eq_priceAsc (a b : Lot × Category) :
    lotLE "price-asc" a b =
      ascKey a.1.price b.1.price (decide (a.1.name ≤ b.1.name)) := by
  simp [lotLE]

theorem lotLE_eq_priceDesc (a b : Lot × Category) :
    lotLE "price-desc" a b =
      descKey a.1.price b.1.price (decide (a.1.name ≤ b.1.name)) := by
  have h1 : ¬ ("price-desc" : String) = "price-asc" := by decide
  simp [lotLE, h1]

theorem lotLE_eq_nameAsc (a b : Lot × Category) :
    lotLE "name-asc" a b = decide (a.1.name ≤ b.1.name) := by
  have h1 : ¬ ("name-asc" : String) = "price-asc" := by decide
  have h2 : ¬ ("name-asc" : String) = "price-desc" := by decide
  simp [lotLE, h1, h2]

theorem lotLE_eq_newest (a b : Lot × Category) :
    lotLE "newest" a b =
      descKey a.1.created_at b.1.created_at (decide (a.1.name ≤ b.1.name)) := by
  have h1 : ¬ ("newest" : String) = "price-asc" := by decide
  have h2 : ¬ ("newest" : String) = "price-desc" := by decide
  have h3 : ¬ ("newest" : String) = "name-asc" := by decide
  simp [lotLE, h1, h2, h3]

theorem lotLE_eq_default (sort : String) (h1 : sort ≠ "price-asc")
    (h2 : sort ≠ "price-desc") (h3 : sort ≠ "name-asc") (h4 : sort ≠ "newest")
    (a b : Lot × Category) :
    lotLE sort a b =
      descKey a.1.featured b.1.featured
        (ascKey a.1.price b.1.price (decide (a.1.sort_order ≤ b.1.sort_order))) := by
  simp [lotLE, h1, h2, h3, h4]

theorem nameRest_trans {a b c : Lot × Category} :
    decide (a.1.name ≤ b.1.name) = true → decide (b.1.name ≤ c.1.name) = true →
      decide (a.1.name ≤ c.1.name) = true := by
  simp only [decide_eq_true_eq]
  exact le_trans

theorem nameRest_total (a b : Lot × Category) :
    (decide (a.1.name ≤ b.1.name) || decide (b.1.name ≤ a.1.name)) = true := by
  simp only [Bool.or_eq_true, decide_eq_true_eq]
  exact le_total _ _

theorem sortOrderRest_trans {a b c : Lot × Category} :
    decide (a.1.sort_order ≤ b.1.sort_order) = true →
      decide (b.1.sort_order ≤ c.1.sort_order) = true →
      decide (a.1.sort_order ≤ c.1.sort_order) = true := by
  simp only [decide_eq_true_eq]
  exact le_trans

theorem sortOrderRest_total (a b : Lot × Category) :
    (decide (a.1.sort_order ≤ b.1.sort_order) ||
      decide (b.1.sort_order ≤ a.1.sort_order)) = true := by
  simp only [Bool.or_eq_true, decide_eq_true_eq]
  exact le_total _ _

theorem lotLE_trans (sort : String) (a b c : Lot × Category) :
    lotLE sort a b = true → lotLE sort b c = true → lotLE sort a c = true := by
  by_cases h1 : sort = "price-asc"
  · subst h1
    simp only [lotLE_eq_priceAsc]
    exact ascKey_trans nameRest_trans
  by_cases h2 : sort = "price-desc"
  · subst h2
    simp only [lotLE_eq_priceDesc]
    exact descKey_trans nameRest_trans
  by_cases h3 : sort = "name-asc"
  · subst h3
    simp only [lotLE_eq_nameAsc]
    exact nameRest_trans
  by_cases h4 : sort = "newest"
  · subst h4
    simp only [lotLE_eq_newest]
    exact descKey_trans nameRest_trans
  simp only [lotLE_eq_default sort h1 h2 h3 h4]
  exact descKey_trans (ascKey_trans sortOrderRest_trans)

theorem lotLE_total (sort : String) (a b : Lot × Category) :
    (lotLE sort a b || lotLE sort b a) = true := by
  by_cases h1 : sort = "price-asc"
  · subst h1
    simp only [lotLE_eq_priceAsc]
    exact ascKey_total (nameRest_total a b)
  by_cases h2 : sort = "price-desc"
  · subst h2
    simp only [lotLE_eq_priceDesc]
    exact descKey_total (nameRest_total a b)
  by_cases h3 : sort = "name-asc"
  · subst h3
    simp only [lotLE_eq_nameAsc]
    exact nameRest_total a b
  by_cases h4 : sort = "newest"
  · subst h4
    simp only [lotLE_eq_newest]
    exact descKey_total (nameRest_total a b)
  simp only [lotLE_eq_default sort h1 h2 h3 h4]
  exact descKey_total (ascKey_total (sortOrderRest_total a b))

theorem lotLE_priceAsc_iff (a b : Lot × Category) :
    lotLE "price-asc" a b = true ↔ specOrderPriceAsc a b := by
  rw [lotLE_eq_priceAsc]
  simp [ascKey, specOrderPriceAsc]

theorem lotLE_priceDesc_iff (a b : Lot × Category) :
    lotLE "price-desc" a b = true ↔ specOrderPriceDesc a b := by
  rw [lotLE_eq_priceDesc]
  simp [descKey, specOrderPriceDesc]

theorem lotLE_nameAsc_iff (a b : Lot × Category) :
    lotLE "name-asc" a b = true ↔ specOrderNameAsc a b := by
  rw [lotLE_eq_nameAsc]
  simp [specOrderNameAsc]

theorem lotLE_newest_iff (a b : Lot × Category) :
    lotLE "newest" a b = true ↔ specOrderNewest a b := by
  rw [lotLE_eq_newest]
  simp [descKey, specOrderNewest]

theorem lotLE_default_iff (sort : String) (h1 : sort ≠ "price-asc")
    (h2 : sort ≠ "price-desc") (h3 : sort ≠ "name-asc") (h4 : sort ≠ "newest")
    (a b : Lot × Category) :
    lotLE sort a b = true ↔ specOrderDefault a b := by
  rw [lotLE_eq_default sort h1 h2 h3 h4]
  simp [descKey, ascKey, specOrderDefault]

/-- C2: every sort mode of `apply_lot_sort` permutes the input and
orders every pair of the result as the documented table says: price
ascending or descending with name tie-break, name ascending, newest by
created_at descending with name tie-break, and for `featured` or any
unrecognized mode featured descending then price ascending then
sort_order ascending. -/
theorem C2_sort_matches_documented_table (sort : String)
    (rows : List (Lot × Category)) :
    (apply_lot_sort sort rows).Perm rows ∧
    List.Pairwise specOrderPriceAsc (apply_lot_sort "price-asc" rows) ∧
    List.Pairwise specOrderPriceDesc (apply_lot_sort "price-desc" rows) ∧
    List.Pairwise specOrderNameAsc (apply_lot_sort "name-asc" rows) ∧
    List.Pairwise specOrderNewest (apply_lot_sort "newest" rows) ∧
    (sort ≠ "price-asc" → sort ≠ "price-desc" → sort ≠ "name-asc" →
      sort ≠ "newest" →
      List.Pairwise specOrderDefault (apply_lot_sort sort rows)) := by
  refine ⟨List.mergeSort_perm rows _, ?_, ?_, ?_, ?_, ?_⟩
  · exact (List.sorted_mergeSort (lotLE_trans "price-asc") (lotLE_total "price-asc")
      rows).imp fun h => (lotLE_priceAsc_iff _ _).mp h
  · exact (List.sorted_mergeSort (lotLE_trans "price-desc") (lotLE_total "price-desc")
      rows).imp fun h => (lotLE_priceDesc_iff _ _).mp h
  · exact (List.sorted_mergeSort (lotLE_trans "name-asc") (lotLE_total "name-asc")
      rows).imp fun h => (lotLE_nameAsc_iff _ _).mp h
  · exact (List.sorted_mergeSort (lotLE_trans "newest") (lotLE_total "newest")
      rows).imp fun h => (lotLE_newest_iff _ _).mp h
  · intro h1 h2 h3 h4
    exact (List.sorted_mergeSort (lotLE_trans sort) (lotLE_total sort)
      rows).imp fun h => (lotLE_default_iff sort h1 h2 h3 h4 _ _).mp h

/-- Witness for C2 at a concrete unrecognized mode and concrete rows. -/
theorem C2_sort_witness :
    List.Pairwise specOrderDefault
      (apply_lot_sort "custom" [(demoLot, demoCategory), (demoLot2, demoCategory)]) :=
  (C2_sort_matches_documented_table "custom"
      [(demoLot, demoCategory), (demoLot2, demoCategory)]).2.2.2.2.2
    (by decide) (by decide) (by decide) (by decide)

/-- C7: deleting a category still referenced by at least one lot yields
a conflict and returns the database untouched; deletion succeeds, and
removes only the category row, exactly when no lot references it. -/
theorem C7_delete_category_restrict (db : DB) (code : String) (category : Category)
    (hfind : db.categories.find? (fun c => c.code == code) = some category) :
    ((∃ l ∈ db.lots, l.category_id = category.id) →
      admin_delete_category db code =
        (db, .error (.conflict "Category is used by lots. Reassign or delete lots first."))) ∧
    ((∀ l ∈ db.lots, l.category_id ≠ category.id) →
      admin_delete_category db code =
        ({ db with categories := db.categories.filter (fun c => !(c.id == category.id)) },
          .ok ())) := by
  constructor
  · rintro ⟨l, hl, hid⟩
    have hmem : l ∈ db.lots.filter (fun x => x.category_id == category.id) := by
      rw [List.mem_filter]
      exact ⟨hl, by simp [hid]⟩
    have hne : (db.lots.filter (fun x => x.category_id == category.id)).length ≠ 0 := by
      intro h0
      rw [List.length_eq_zero] at h0
      rw [h0] at hmem
      cases hmem
    simp [admin_delete_category, hfind, hne]
  · intro hnone
    have hz : (db.lots.filter (fun x => x.category_id == category.id)).length = 0 := by
      rw [List.length_eq_zero, List.filter_eq_nil_iff]
      intro a ha
      simp [hnone a ha]
    simp [admin_delete_category, hfind, hz]

/-- Witness for C7: in the demo database the category `rings` is
referenced by both lots, so deleting it conflicts and changes
nothing. -/
theorem C7_delete_category_witness :
    admin_delete_category demoDB "rings" =
      (demoDB, .error (.conflict "Category is used by lots. Reassign or delete lots first.")) :=
  (C7_delete_category_restrict demoDB "rings" demoCategory (by rfl)).1
    ⟨demoLot, by decide, by decide⟩

/-- C5: duplicating an existing lot into an unused slug copies category,
price, description, specs, images and glitch background from the
source; name, featured and sort_order use the caller override when
supplied (a supplied name being non-empty) and the source value
otherwise; sold uses the override when supplied and otherwise defaults
to false, not the source's sold state; the new row is appended. -/
theorem C5_duplicate_lot (db : DB) (slug : String) (payload : LotDuplicateCreate)
    (now : Int) (source : Lot)
    (hfind : db.lots.find? (fun l => l.slug == slug) = some source)
    (hfree : db.lots.any (fun l => l.slug == payload.new_slug) = false)
    (hname : payload.new_name ≠ some "") :
    ∃ dup : Lot,
      admin_duplicate_lot db slug payload now =
        ({ db with lots := db.lots ++ [dup] }, .ok dup) ∧
      dup.slug = payload.new_slug ∧
      dup.name = payload.new_name.getD source.name ∧
      dup.category_id = source.category_id ∧
      dup.price = source.price ∧
      dup.description = source.description ∧
      dup.specs = source.specs ∧
      dup.images = source.images ∧
      dup.featured = payload.featured.getD source.featured ∧
      dup.sold = payload.sold.getD false ∧
      dup.glitch_background = source.glitch_background ∧
      dup.sort_order = payload.sort_order.getD source.sort_order := by
  have hnm : (match payload.new_name with
              | some n => if n == "" then source.name else n
              | none => source.name) = payload.new_name.getD source.name := by
    cases hp : payload.new_name with
    | none => rfl
    | some n =>
      have hn : ¬ n = "" := fun h => hname (by rw [hp, h])
      simp [hn]
  unfold admin_duplicate_lot
  simp only [hfind, hfree, Bool.false_eq_true, if_false]
  exact ⟨_, rfl, rfl, hnm, rfl, rfl, rfl, rfl, rfl, rfl, rfl, rfl, rfl⟩

/-- Witness for C5: duplicating the sold demo lot with no overrides
copies every field but forces sold to false. -/
theorem C5_duplicate_witness :
    ∃ dup : Lot,
      admin_duplicate_lot demoDB "ring-1" { new_slug := "ring-9" } 99 =
        ({ demoDB with lots := demoDB.lots ++ [dup] }, .ok dup) ∧
      dup.slug = "ring-9" ∧
      dup.name = demoLot.name ∧
      dup.category_id = demoLot.category_id ∧
      dup.price = demoLot.price ∧
      dup.description = demoLot.description ∧
      dup.specs = demoLot.specs ∧
      dup.images = demoLot.images ∧
      dup.featured = demoLot.featured ∧
      dup.sold = false ∧
      dup.glitch_background = demoLot.glitch_background ∧
      dup.sort_order = demoLot.sort_order :=
  C5_duplicate_lot demoDB "ring-1" { new_slug := "ring-9" } 99 demoLot
    (by rfl) (by decide) (by decide)

/-- C6: the PATCH lot handler, when the target exists, the renamed slug
does not collide, and the supplied category code resolves, rewrites the
stored row to the record-update of the old row at exactly the supplied
fields (omitted fields, and fields outside the payload such as id and
created_at, keep their old values), and touches nothing else in the
database. -/
theorem C6_update_lot_partial (db : DB) (slug : String) (payload : LotUpdate)
    (old : Lot) (cid : Nat)
    (hfind : db.lots.find? (fun l => l.slug == slug) = some old)
    (hnc : ∀ s, payload.slug = some s → s ≠ slug →
      db.lots.any (fun l => l.slug == s) = false)
    (hcid : (match payload.category_code with
             | none => some old.category_id
             | some c => (db.categories.find? (fun k => k.code == c)).map
                 (fun k => k.id) : Option Nat) = some cid) :
    admin_update_lot db slug payload =
      ({ db with lots := db.lots.map (fun l =>
          if l.id == old.id then
            { old with
              slug := payload.slug.getD old.slug
              name := payload.name.getD old.name
              category_id := cid
              price := payload.price.getD old.price
              description := payload.description.getD old.description
              specs := payload.specs.getD old.specs
              images := payload.images.getD old.images
              featured := payload.featured.getD old.featured
              sold := payload.sold.getD old.sold
              glitch_background := payload.glitch_background.getD old.glitch_background
              sort_order := payload.sort_order.getD old.sort_order }
          else l) },
        .ok { old with
              slug := payload.slug.getD old.slug
              name := payload.name.getD old.name
              category_id := cid
              price := payload.price.getD old.price
              description := payload.description.getD old.description
              specs := payload.specs.getD old.specs
              images := payload.images.getD old.images
              featured := payload.featured.getD old.featured
              sold := payload.sold.getD old.sold
              glitch_background := payload.glitch_background.getD old.glitch_background
              sort_order := payload.sort_order.getD old.sort_order }) := by
  have hsc : (match payload.slug with
              | some s => s != slug && db.lots.any (fun l => l.slug == s)
              | none => false) = false := by
    cases hp : payload.slug with
    | none => rfl
    | some s =>
      by_cases hss : s = slug
      · simp [hss]
      · simp [bne_iff_ne, hss, hnc s hp hss]
  unfold admin_update_lot
  simp only [hfind, hsc, hcid]
  rfl

/-- Witness for C6: patching the demo lot with only a price of 500
rewrites just that row to the old record with price 500. -/
theorem C6_update_lot_witness :
    admin_update_lot demoDB "ring-1" { price := some 500 } =
      ({ demoDB with lots := demoDB.lots.map (fun l =>
          if l.id == demoLot.id then { demoLot with price := 500 } else l) },
        .ok { demoLot with price := 500 }) :=
  C6_update_lot_partial demoDB "ring-1" { price := some 500 } demoLot
    demoLot.category_id (by rfl) (fun s hs => nomatch hs) (by rfl)

theorem bulkGo_length (cats : List Category) (existing : List String) (now : Int) :
    ∀ (items : List LotCreate) (planned : List String) (nextId : Nat),
      (bulkGo cats existing now items planned nextId).1.length +
        (bulkGo cats existing now items planned nextId).2.length = items.length := by
  intro items
  induction items with
  | nil => intro planned nextId; simp [bulkGo]
  | cons item rest ih =>
    intro planned nextId
    simp only [bulkGo]
    by_cases h1 : existing.contains item.slug = true
    · have := ih planned nextId
      simp only [h1, if_true, List.length_cons]
      omega
    · simp only [h1, Bool.false_eq_true, if_false]
      by_cases h2 : planned.contains item.slug = true
      · have := ih planned nextId
        simp only [h2, if_true, List.length_cons]
        omega
      · simp only [h2, Bool.false_eq_true, if_false]
        cases hc : categoryMapGet cats item.category_code with
        | none =>
          have := ih planned nextId
          simp only [List.length_cons]
          omega
        | some category =>
          have := ih (item.slug :: planned) (nextId + 1)
          simp only [List.length_cons]
          omega

theorem bulkGo_slug_perm (cats : List Category) (existing : List String) (now : Int) :
    ∀ (items : List LotCreate) (planned : List String) (nextId : Nat),
      ((bulkGo cats existing now items planned nextId).1.map (fun l => l.slug) ++
        (bulkGo cats existing now items planned nextId).2.map (fun e => e.slug)).Perm
        (items.map (fun i => i.slug)) := by
  intro items
  induction items with
  | nil => intro planned nextId; simp [bulkGo]
  | cons item rest ih =>
    intro planned nextId
    simp only [bulkGo, List.map_cons]
    by_cases h1 : existing.contains item.slug = true
    · simp only [h1, if_true, List.map_cons]
      exact List.perm_middle.trans ((ih planned nextId).cons item.slug)
    · simp only [h1, Bool.false_eq_true, if_false]
      by_cases h2 : planned.contains item.slug = true
      · simp only [h2, if_true, List.map_cons]
        exact List.perm_middle.trans ((ih planned nextId).cons item.slug)
      · simp only [h2, Bool.false_eq_true, if_false]
        cases hc : categoryMapGet cats item.category_code with
        | none =>
          simp only [List.map_cons]
          exact List.perm_middle.trans ((ih planned nextId).cons item.slug)
        | some category =>
          simp only [List.map_cons, List.cons_append]
          exact (ih (item.slug :: planned) (nextId + 1)).cons item.slug

/-- C4: bulk lot create reports the attempted item count as total,
classifies every item independently as either one created row or one
slug/reason error (already-persisted slug, slug accepted earlier in the
batch, or unresolvable category), never dropping or blocking later
items, inserts exactly the accepted rows, and in particular a batch of
two items with the same fresh slug yields one created row and one
duplicate-slug error. -/
theorem C4_bulk_create (db : DB) (items : List LotCreate) (now : Int) :
    (admin_bulk_create_lots db items now).2.total = items.length ∧
    (admin_bulk_create_lots db items now).2.created.length +
      (admin_bulk_create_lots db items now).2.errors.length = items.length ∧
    ((admin_bulk_create_lots db items now).2.created.map (fun c => c.slug) ++
      (admin_bulk_create_lots db items now).2.errors.map (fun e => e.slug)).Perm
      (items.map (fun i => i.slug)) ∧
    (admin_bulk_create_lots db items now).1.lots.length =
      db.lots.length + (admin_bulk_create_lots db items now).2.created.length ∧
    (∀ i1 i2 category, items = [i1, i2] → i2.slug = i1.slug →
      (db.lots.map (fun l => l.slug)).contains i1.slug = false →
      categoryMapGet db.categories i1.category_code = some category →
      (admin_bulk_create_lots db items now).2.created.length = 1 ∧
      (admin_bulk_create_lots db items now).2.errors =
        [⟨i2.slug, "Duplicate slug in payload"⟩]) := by
  cases items with
  | nil =>
    refine ⟨rfl, rfl, by simp [admin_bulk_create_lots], rfl, ?_⟩
    intro i1 i2 category heq
    cases heq
  | cons a tl =>
    refine ⟨rfl, ?_, ?_, ?_, ?_⟩
    · simp only [admin_bulk_create_lots, List.length_map]
      exact bulkGo_length _ _ _ _ _ _
    · simp only [admin_bulk_create_lots, List.map_map]
      have hmap : ∀ (ls : List Lot) (db2 : DB),
          ls.map (fun l => (lot_to_schema l
            (db2.categories.find? (fun c => c.id == l.category_id))).slug) =
          ls.map (fun l => l.slug) :=
        fun ls db2 => List.map_congr_left (fun l _ => rfl)
      rw [show ((fun c : LotOut => c.slug) ∘ (fun l : Lot => lot_to_schema l
        (({ db with lots := db.lots ++ (bulkGo db.categories
          (db.lots.map (fun l => l.slug)) now (a :: tl) []
          (freshId (db.lots.map (fun l => l.id)))).1 } : DB).categories.find?
          (fun c => c.id == l.category_id)))) =
        (fun l : Lot => l.slug) from funext (fun l => rfl)]
      exact bulkGo_slug_perm _ _ _ _ _ _
    · simp only [admin_bulk_create_lots, List.length_append, List.length_map]
    · intro i1 i2 category heq hslug2 hfree hcat
      cases heq
      constructor
      · simp only [admin_bulk_create_lots, List.length_map, bulkGo, hfree,
          Bool.false_eq_true, if_false, List.contains_nil, hcat, hslug2,
          List.contains_cons, beq_self_eq_true, Bool.true_or, if_true,
          List.length_cons, List.length_nil]
      · simp only [admin_bulk_create_lots, bulkGo, hfree, Bool.false_eq_true,
          if_false, List.contains_nil, hcat, hslug2, List.contains_cons,
          beq_self_eq_true, Bool.true_or, if_true]

/-- Witness for C4: two copies of the same fresh item against the demo
database produce one created row and one duplicate-slug error. -/
theorem C4_bulk_witness :
    (admin_bulk_create_lots demoDB [demoBulkItem, demoBulkItem] 5).2.created.length = 1 ∧
    (admin_bulk_create_lots demoDB [demoBulkItem, demoBulkItem] 5).2.errors =
      [⟨"new-ring", "Duplicate slug in payload"⟩] :=
  (C4_bulk_create demoDB [demoBulkItem, demoBulkItem] 5).2.2.2.2
    demoBulkItem demoBulkItem demoCategory rfl rfl (by decide) (by decide)

theorem dictInsert_fresh (m : List (String × String)) (k v : String)
    (h : ∀ p ∈ m, p.1 ≠ k) : dictInsert m k v = m ++ [(k, v)] := by
  have hany : (m.any fun p => p.1 == k) = false := by
    rw [List.any_eq_false]
    intro p hp
    simp [h p hp]
  simp [dictInsert, hany]

theorem labels_build (cs : List Category) :
    ∀ (init : List (String × String)),
      (∀ c ∈ cs, ∀ p ∈ init, p.1 ≠ c.code) →
      (cs.map (fun c => c.code)).Nodup →
      cs.foldl (fun m c => dictInsert m c.code c.label) init =
        init ++ cs.map (fun c => (c.code, c.label)) := by
  induction cs with
  | nil => intro init _ _; simp
  | cons c rest ih =>
    intro init hfresh hnodup
    simp only [List.foldl_cons]
    rw [dictInsert_fresh init c.code c.label
      (fun p hp => hfresh c (List.mem_cons_self c rest) p hp)]
    rw [List.map_cons, List.nodup_cons] at hnodup
    rw [ih (init ++ [(c.code, c.label)]) ?_ hnodup.2]
    · simp
    · intro c2 hc2 p hp
      rcases List.mem_append.mp hp with hpi | hps
      · exact hfresh c2 (List.mem_cons_of_mem c hc2) p hpi
      · have hpc : p = (c.code, c.label) := by simpa using hps
        subst hpc
        show c.code ≠ c2.code
        intro hcc
        exact hnodup.1 (by rw [hcc]; exact List.mem_map_of_mem (fun x => x.code) hc2)

theorem assoc_find (cs : List Category) (c : Category) :
    (cs.map (fun x => x.code)).Nodup → c ∈ cs →
    (cs.map (fun x => (x.code, x.label))).find? (fun p => p.1 == c.code) =
      some (c.code, c.label) := by
  induction cs with
  | nil => intro _ hc; cases hc
  | cons d rest ih =>
    intro hnodup hc
    rw [List.map_cons, List.nodup_cons] at hnodup
    rcases List.mem_cons.mp hc with hcd | hcr
    · subst hcd
      simp [List.find?_cons]
    · have hne : d.code ≠ c.code := by
        intro hcc
        exact hnodup.1 (hcc ▸ List.mem_map_of_mem (fun x => x.code) hcr)
      rw [List.map_cons, List.find?_cons]
      have hb : ((d.code, d.label).1 == c.code) = false := by
        simp [hne]
      rw [hb]
      exact ih hnodup.2 hcr

/-- Counterexample for C9: on a concrete database the synthetic
bootstrap entry maps `all` to the Russian label `Все`, not to `All` as
the claim states. -/
theorem C9_counterexample :
    (get_bootstrap demoSeed demoDB).category_labels =
      [("all", "Все"), ("rings", "Кольца")] ∧
    ("Все" : String) ≠ "All" := by
  constructor
  · simp [get_bootstrap, demoDB, demoCategory, dictInsert]
  · decide

/-- C9 (amended): for every data state whose category codes are unique
and do not use the reserved code `all`, the bootstrap label map holds
exactly one entry per stored category, mapping its code to its label,
plus the synthetic entry mapping `all` to `Все` (the Russian word for
All). -/
theorem C9_bootstrap_labels (sd : SeedData) (db : DB)
    (hnodup : (db.categories.map (fun c => c.code)).Nodup)
    (hall : "all" ∉ db.categories.map (fun c => c.code)) :
    (get_bootstrap sd db).category_labels.length = db.categories.length + 1 ∧
    dictGet (get_bootstrap sd db).category_labels "all" = some "Все" ∧
    ∀ c ∈ db.categories,
      dictGet (get_bootstrap sd db).category_labels c.code = some c.label := by
  have hperm : (db.categories.mergeSort
      (fun a b => decide (a.sort_order ≤ b.sort_order))).Perm db.categories :=
    List.mergeSort_perm db.categories _
  have hpermmap : ((db.categories.mergeSort
      (fun a b => decide (a.sort_order ≤ b.sort_order))).map (fun c => c.code)).Perm
      (db.categories.map (fun c => c.code)) := hperm.map _
  have hnodup2 : ((db.categories.mergeSort
      (fun a b => decide (a.sort_order ≤ b.sort_order))).map (fun c => c.code)).Nodup :=
    hpermmap.nodup_iff.mpr hnodup
  have hall2 : ∀ c ∈ db.categories.mergeSort
      (fun a b => decide (a.sort_order ≤ b.sort_order)), c.code ≠ "all" := by
    intro c hc hcc
    exact hall (hcc ▸ List.mem_map_of_mem (fun x => x.code) (hperm.mem_iff.mp hc))
  have hbuild : (get_bootstrap sd db).category_labels =
      [("all", "Все")] ++ (db.categories.mergeSort
        (fun a b => decide (a.sort_order ≤ b.sort_order))).map
        (fun c => (c.code, c.label)) := by
    simp only [get_bootstrap]
    exact labels_build _ [("all", "Все")]
      (fun c hc p hp => by
        have hp2 : p = ("all", "Все") := by simpa using hp
        rw [hp2]
        exact fun hcc => hall2 c hc hcc.symm)
      hnodup2
  refine ⟨?_, ?_, ?_⟩
  · rw [hbuild]
    rw [List.length_append, List.length_map, hperm.length_eq, List.length_singleton]
    omega
  · rw [hbuild]
    rfl
  · intro c hc
    rw [hbuild]
    unfold dictGet
    rw [List.cons_append, List.nil_append, List.find?_cons]
    have hcne : c.code ≠ "all" := fun hcc =>
      hall (hcc ▸ List.mem_map_of_mem (fun x => x.code) hc)
    have hb : (("all", "Все").1 == c.code) = false := by
      simp only [beq_eq_false_iff_ne]
      exact fun hcc => hcne hcc.symm
    rw [hb, assoc_find _ c hnodup2 (hperm.mem_iff.mpr hc)]
    rfl

/-- Witness for the amended C9 on the demo database: category codes are
unique, none is the reserved `all`, and the label map behaves as
amended. -/
theorem C9_bootstrap_witness :
    (get_bootstrap demoSeed demoDB).category_labels.length =
      demoDB.categories.length + 1 ∧
    dictGet (get_bootstrap demoSeed demoDB).category_labels "all" = some "Все" ∧
    ∀ c ∈ demoDB.categories,
      dictGet (get_bootstrap demoSeed demoDB).category_labels c.code = some c.label :=
  C9_bootstrap_labels demoSeed demoDB (by decide) (by decide)

/-- Evaluation for C3 at the failing state: with the lot table empty but
the seed bundle's category code already stored, running the seeding
procedure twice (the second run is a no-op because the first one
inserted a lot) leaves the category table with the code `rings` twice:
the bulk load never checks the existing category rows. -/
theorem C3_seed_rerun_duplicates :
    ((seed_if_empty demoSeed 0 (seed_if_empty demoSeed 0 demoSeedDB)).categories.map
      (fun c => c.code)) = ["rings", "rings"] ∧
    ¬ ((seed_if_empty demoSeed 0 (seed_if_empty demoSeed 0 demoSeedDB)).categories.map
      (fun c => c.code)).Nodup := by
  constructor
  · rfl
  · decide

end JShop
